import Mathlib

/-!
Verification development for the per-device telemetry pipeline of `src/gui.py`
(class `ESP32Device` and its collaborators).

The Python code is shallowly embedded as follows.

* One protocol line is a `String`; all tokenising is done character by
  character on `String.data` with structurally recursive functions, mirroring
  Python's `str.strip`, `str.split(',')`, `part.split(':', 1)` and `int(...)`.
* `latest_data` is the structure `Latest`; Python `None`-valued entries are
  `Option` fields, the `hr_valid`/`spo2_valid` entries are `Bool`, and the
  free-form `status` string is kept as a `List Char` token.
* The bounded `collections.deque(maxlen=n)` buffers are `List Int` together
  with the append-with-eviction operation `deqAppend n`.
* `numpy` float results are modelled exactly: means and variances as `ℚ`,
  square roots (`np.std`, RMSSD) as `Real.sqrt` of the rational value, and the
  Python `int(...)` truncation of a float as truncating integer division
  (`Int.tdiv`), which agrees with float truncation on the small exact values
  involved.
* Wall-clock values (`time.time()`, `datetime.now()`) are an explicit `now`
  parameter threaded through `parse_data`.
* The Bluetooth transport is external; `connect` takes the outcome of the
  socket connection attempt as a boolean parameter (the caught exception path
  of the Python code corresponds to `transportOk = false`).
-/

/-- Python `str.strip()` on a list of characters: drop whitespace at both
ends. -/
def charTrim (cs : List Char) : List Char :=
  ((cs.dropWhile Char.isWhitespace).reverse.dropWhile Char.isWhitespace).reverse

/-- Python `s.split(sep)` for a single-character separator: split into
(possibly empty) groups; the empty string yields one empty group, exactly as
in Python. -/
def splitChar (sep : Char) : List Char → List (List Char)
  | [] => [[]]
  | c :: cs =>
    let r := splitChar sep cs
    if c = sep then [] :: r
    else
      match r with
      | [] => [[c]]
      | g :: gs => (c :: g) :: gs

/-- Split at the first occurrence of `sep`, Python `part.split(sep, 1)` for a
part that contains `sep`; `none` when `sep` does not occur (the code's
`':' in part` test). -/
def splitFirst (sep : Char) : List Char → Option (List Char × List Char)
  | [] => none
  | c :: rest =>
    if c = sep then some ([], rest)
    else (splitFirst sep rest).map (fun p => (c :: p.1, p.2))

/-- Value of a nonempty all-digit character list; `none` otherwise. -/
def digitsVal (ds : List Char) : Option Nat :=
  match ds with
  | [] => none
  | _ =>
    ds.foldl
      (fun acc c =>
        acc.bind (fun n => if c.isDigit then some (n * 10 + (c.toNat - 48)) else none))
      (some 0)

/-- Python `int(s)` on a string: optional surrounding whitespace, an optional
sign, then at least one digit; raises (here: `none`) otherwise. -/
def pyInt (cs : List Char) : Option Int :=
  match charTrim cs with
  | '-' :: ds => (digitsVal ds).map (fun n => -(n : Int))
  | '+' :: ds => (digitsVal ds).map (fun n => (n : Int))
  | ds => (digitsVal ds).map (fun n => (n : Int))

/-- The token dictionary built by `parse_data`'s loop: strip the line, split
on commas, keep the parts containing a colon, split each at its first colon.
Matches `data_dict` of `src/gui.py`, lines 95-101. -/
def frameDict (line : List Char) : List (List Char × List Char) :=
  (splitChar ',' (charTrim line)).filterMap (splitFirst ':')

/-- Python dict lookup where later bindings overwrite earlier ones: the last
binding of the key wins. -/
def lookupLast (d : List (List Char × List Char)) (k : List Char) : Option (List Char) :=
  d.foldl (fun acc p => if p.1 = k then some p.2 else acc) none

/-- `self.latest_data` of `ESP32Device`. -/
structure Latest where
  hr : Option Int
  hr_valid : Bool
  spo2 : Option Int
  spo2_valid : Bool
  ir_avg : Option Int
  ir_range : Option Int
  timestamp : Option Int
  local_time : Option Int
  status : List Char
  deriving DecidableEq

/-- `self.metrics` of `ESP32Device`; `hrstd` and `rmssd` hold square roots and
are therefore real-valued. -/
structure Metrics where
  bpm : Option ℚ
  ipm : Option ℚ
  hrstd : Option ℝ
  rmssd : Option ℝ
  avg_spo2 : Option Int

/-- The mutable state of one `ESP32Device`. -/
structure Device where
  mac_address : Option (List Char)
  sock : Bool
  connected : Bool
  latest : Latest
  hr_history : List Int
  timestamp_history : List Int
  hr_smoothing_buffer : List Int
  spo2_smoothing_buffer : List Int
  smoothed_hr : Option Int
  smoothed_spo2 : Option Int
  metrics : Metrics

/-- `latest_data` as initialised in `ESP32Device.__init__`. -/
def initLatest : Latest :=
  { hr := none, hr_valid := false, spo2 := none, spo2_valid := false,
    ir_avg := none, ir_range := none, timestamp := none, local_time := none,
    status := "disconnected".data }

/-- `self.metrics` as initialised in `ESP32Device.__init__`: every metric
starts absent. -/
def initMetrics : Metrics :=
  { bpm := none, ipm := none, hrstd := none, rmssd := none, avg_spo2 := none }

/-- A freshly constructed `ESP32Device` with the given MAC address. -/
def initDevice (mac : Option (List Char)) : Device :=
  { mac_address := mac, sock := false, connected := false, latest := initLatest,
    hr_history := [], timestamp_history := [], hr_smoothing_buffer := [],
    spo2_smoothing_buffer := [], smoothed_hr := none, smoothed_spo2 := none,
    metrics := initMetrics }

/-- `ESP32Device.connect`: without a MAC address it prints and returns
`False` leaving the state untouched; otherwise the socket is created and the
connection attempt either succeeds (`connected`, status `connected`) or raises
inside the `try` (status `error`, returns `False`). -/
def connect (d : Device) (transportOk : Bool) : Bool × Device :=
  match d.mac_address with
  | none => (false, d)
  | some _ =>
    if transportOk then
      (true, { d with sock := true, connected := true,
                      latest := { d.latest with status := "connected".data } })
    else
      (false, { d with sock := true, connected := false,
                       latest := { d.latest with status := "error".data } })

/-- `ESP32Device.disconnect`: closes the socket if present (exceptions
swallowed), clears the connected flag, sets status `disconnected`. -/
def disconnect (d : Device) : Device :=
  { d with connected := false,
           latest := { d.latest with status := "disconnected".data } }

/-- One `if KEY in data_dict: field = int(data_dict[KEY])` step of
`parse_data`: absent key leaves the state, an unparsable value raises
(`Except.error` carrying the state updated so far), a parsable one applies the
field update. -/
def setIntField (dict : List (List Char × List Char)) (key : List Char)
    (f : Latest → Int → Latest) (l : Latest) : Except Latest Latest :=
  match lookupLast dict key with
  | none => Except.ok l
  | some s =>
    match pyInt s with
    | none => Except.error l
    | some n => Except.ok (f l n)

/-- The infallible tail of `parse_data`'s `latest_data` update: set
`local_time` to the current time, then the status token (`'receiving'` when no
`STATUS` key is present). -/
def finishLatest (dict : List (List Char × List Char)) (now : Int) (l : Latest) : Latest :=
  let l1 := { l with local_time := some now }
  match lookupLast dict "STATUS".data with
  | some s => { l1 with status := s }
  | none => { l1 with status := "receiving".data }

/-- The `HR` entry of `parse_data` line 104-105. -/
def fsHR : List Char × (Latest → Int → Latest) :=
  ("HR".data, fun c n => { c with hr := some n })

/-- The `HR_VALID` entry of line 106-107; `bool(int(v))` becomes `v ≠ 0`. -/
def fsHRV : List Char × (Latest → Int → Latest) :=
  ("HR_VALID".data, fun c n => { c with hr_valid := n != 0 })

/-- The `SPO2` entry of line 108-109. -/
def fsSPO2 : List Char × (Latest → Int → Latest) :=
  ("SPO2".data, fun c n => { c with spo2 := some n })

/-- The `SPO2_VALID` entry of line 110-111. -/
def fsSPO2V : List Char × (Latest → Int → Latest) :=
  ("SPO2_VALID".data, fun c n => { c with spo2_valid := n != 0 })

/-- The `IR_AVG` entry of line 112-113. -/
def fsIRA : List Char × (Latest → Int → Latest) :=
  ("IR_AVG".data, fun c n => { c with ir_avg := some n })

/-- The `IR_RANGE` entry of line 114-115. -/
def fsIRR : List Char × (Latest → Int → Latest) :=
  ("IR_RANGE".data, fun c n => { c with ir_range := some n })

/-- The `TIMESTAMP` entry of line 116-117. -/
def fsTS : List Char × (Latest → Int → Latest) :=
  ("TIMESTAMP".data, fun c n => { c with timestamp := some n })

/-- The seven integer-valued `latest_data` entries of `parse_data`
(lines 104-117), in source order. -/
def fieldSetters : List (List Char × (Latest → Int → Latest)) :=
  [fsHR, fsHRV, fsSPO2, fsSPO2V, fsIRA, fsIRR, fsTS]

/-- Run a sequence of `if KEY in data_dict:` update steps; the first
unparsable value aborts with the state updated so far. -/
def applyFields (dict : List (List Char × List Char)) :
    List (List Char × (Latest → Int → Latest)) → Latest → Except Latest Latest
  | [], l => Except.ok l
  | (k, f) :: rest, l =>
    match setIntField dict k f l with
    | Except.error e => Except.error e
    | Except.ok l2 => applyFields dict rest l2

/-- The `latest_data` update of `parse_data` (lines 103-125): the seven
integer fields in source order, each able to raise, then time and status.  On
`Except.error` the carried value is the partially updated `latest_data`, since
the Python code mutates the dictionary in place before the exception is
thrown. -/
def updateLatest (dict : List (List Char × List Char)) (now : Int)
    (l : Latest) : Except Latest Latest :=
  Except.map (finishLatest dict now) (applyFields dict fieldSetters l)

/-- Append to a `deque(maxlen=cap)`: the oldest entries are evicted from the
left once the capacity is exceeded. -/
def deqAppend (cap : Nat) (xs : List Int) (x : Int) : List Int :=
  let ys := xs ++ [x]
  if cap < ys.length then ys.drop (ys.length - cap) else ys

/-- `parse_data` lines 127-132: a valid, present heart rate in `[40, 200]`
enters the history window (with its capture time) and the heart-rate
smoothing buffer. -/
def admitHr (now : Int) (d : Device) : Device :=
  if d.latest.hr_valid = true then
    match d.latest.hr with
    | some v =>
      if 40 ≤ v ∧ v ≤ 200 then
        { d with hr_history := deqAppend 300 d.hr_history v,
                 timestamp_history := deqAppend 300 d.timestamp_history now,
                 hr_smoothing_buffer := deqAppend 5 d.hr_smoothing_buffer v }
      else d
    | none => d
  else d

/-- `parse_data` lines 134-137: a valid, present SpO2 in `[70, 100]` enters
the SpO2 smoothing buffer. -/
def admitSpo2 (d : Device) : Device :=
  if d.latest.spo2_valid = true then
    match d.latest.spo2 with
    | some v =>
      if 70 ≤ v ∧ v ≤ 100 then
        { d with spo2_smoothing_buffer := deqAppend 5 d.spo2_smoothing_buffer v }
      else d
    | none => d
  else d

/-- Insert into a sorted list of integers (ascending). -/
def insertSorted (x : Int) : List Int → List Int
  | [] => [x]
  | y :: ys => if x ≤ y then x :: y :: ys else y :: insertSorted x ys

/-- Ascending insertion sort, the ordering `np.median` works with. -/
def sortInts (xs : List Int) : List Int := xs.foldr insertSorted []

/-- `int(np.median(xs))` for a list of integers: middle element of the sorted
list for odd length, truncated average of the two middle elements for even
length. -/
def npMedianInt (xs : List Int) : Int :=
  let s := sortInts xs
  let n := s.length
  if n % 2 = 1 then s.getD (n / 2) 0
  else Int.tdiv (s.getD (n / 2 - 1) 0 + s.getD (n / 2) 0) 2

/-- `int(np.mean(xs))` for a list of integers: the truncated arithmetic
mean. -/
def npMeanInt (xs : List Int) : Int :=
  Int.tdiv xs.sum xs.length

/-- `ESP32Device.calculate_smoothed_values` (lines 150-162): heart rate uses
the median for three or more buffered samples and the mean for one or two;
SpO2 uses the truncated mean for three or more and the most recent raw value
for one or two.  An empty buffer leaves the previous smoothed value in
place. -/
def calculate_smoothed_values (d : Device) : Device :=
  let d1 :=
    if 3 ≤ d.hr_smoothing_buffer.length then
      { d with smoothed_hr := some (npMedianInt d.hr_smoothing_buffer) }
    else if 0 < d.hr_smoothing_buffer.length then
      { d with smoothed_hr := some (npMeanInt d.hr_smoothing_buffer) }
    else d
  if 3 ≤ d1.spo2_smoothing_buffer.length then
    { d1 with smoothed_spo2 := some (npMeanInt d1.spo2_smoothing_buffer) }
  else if 0 < d1.spo2_smoothing_buffer.length then
    { d1 with smoothed_spo2 := some ((d1.spo2_smoothing_buffer.getLast?).getD 0) }
  else d1

/-- `np.mean` of a list of integers as an exact rational. -/
def npMean (xs : List Int) : ℚ :=
  (xs.sum : ℚ) / (xs.length : ℚ)

/-- The population variance `np.std(xs) ** 2`: mean squared deviation from the
mean (numpy's default `ddof = 0`). -/
def variancePop (xs : List Int) : ℚ :=
  ((xs.map (fun x => ((x : ℚ) - npMean xs) ^ 2)).sum) / (xs.length : ℚ)

/-- `np.std(xs)` with numpy's default `ddof = 0`: the population standard
deviation. -/
noncomputable def npStd (xs : List Int) : ℝ :=
  Real.sqrt ((variancePop xs : ℚ) : ℝ)

/-- `np.diff`: successive differences, oldest to newest. -/
def npDiff : List Int → List Int
  | a :: b :: rest => (b - a) :: npDiff (b :: rest)
  | _ => []

/-- Mean of the squares of a list of integers, as an exact rational. -/
def meanSq (ys : List Int) : ℚ :=
  ((ys.map (fun y => ((y : ℚ)) ^ 2)).sum) / (ys.length : ℚ)

/-- `np.sqrt(np.mean(np.diff(xs) ** 2))`, the RMSSD of lines 181-183. -/
noncomputable def npRmssd (xs : List Int) : ℝ :=
  Real.sqrt ((meanSq (npDiff xs) : ℚ) : ℝ)

/-- The sample standard deviation in the spec's words (claim C6): square root
of the sum of squared deviations from the mean divided by `n - 1`.  This is a
refinement reference definition; the code's `hrstd` is `npStd`. -/
noncomputable def specSampleStd (xs : List Int) : ℝ :=
  Real.sqrt
    ((((xs.map (fun x => ((x : ℚ) - npMean xs) ^ 2)).sum / ((xs.length : ℚ) - 1)) : ℚ) : ℝ)

/-- `ESP32Device.calculate_metrics` (lines 164-187): below two history
samples nothing is touched; otherwise mean, the `ipm` alias, population
standard deviation and RMSSD are recomputed over the full window, and the
SpO2 passthrough is refreshed from the latest reading when it is valid. -/
noncomputable def calculate_metrics (d : Device) : Device :=
  if d.hr_history.length < 2 then d
  else
    let h := d.hr_history
    let m1 := { d.metrics with bpm := some (npMean h) }
    let m2 := { m1 with ipm := m1.bpm }
    let m3 := { m2 with hrstd := some (npStd h) }
    let m4 := if 2 ≤ h.length then { m3 with rmssd := some (npRmssd h) } else m3
    let m5 :=
      if d.latest.spo2_valid = true ∧ d.latest.spo2 ≠ none then
        { m4 with avg_spo2 := d.latest.spo2 }
      else m4
    { d with metrics := m5 }

/-- `ESP32Device.parse_data`: build the token dictionary, update
`latest_data` field by field (an unparsable integer raises, is caught, and
`False` is returned with the partially updated `latest_data` in place), then
run admission, smoothing and metrics and return `True`. -/
noncomputable def parse_data (d : Device) (data_string : String) (now : Int) : Bool × Device :=
  match updateLatest (frameDict data_string.data) now d.latest with
  | Except.error lbad => (false, { d with latest := lbad })
  | Except.ok l =>
    let d1 := { d with latest := l }
    let d2 := admitSpo2 (admitHr now d1)
    let d3 := calculate_smoothed_values d2
    let d4 := calculate_metrics d3
    (true, d4)

/-- Feed a list of lines (with their arrival times) through `parse_data`,
keeping the state of each call whether it succeeds or fails — exactly what
`receive_data`'s line loop does. -/
noncomputable def runFrames (d : Device) : List (String × Int) → Device
  | [] => d
  | (line, now) :: rest => runFrames (parse_data d line now).2 rest

/-- One observable state transition of an `ESP32Device`: a parsed line, a
connection attempt, a disconnect, or the Bluetooth-error branch of
`receive_data` (lines 206-210). -/
inductive Step : Device → Device → Prop
  | parse (d : Device) (line : String) (now : Int) : Step d (parse_data d line now).2
  | conn (d : Device) (transportOk : Bool) : Step d (connect d transportOk).2
  | disc (d : Device) : Step d (disconnect d)
  | rxError (d : Device) :
      Step d { d with connected := false,
                      latest := { d.latest with status := "error".data } }

/-- Device states reachable from a freshly constructed `ESP32Device`. -/
inductive Reachable : Device → Prop
  | init (mac : Option (List Char)) : Reachable (initDevice mac)
  | step {d d' : Device} : Reachable d → Step d d' → Reachable d'

/-! ### Basic lemmas about the `latest_data` update -/

theorem map_ok_elim {f : Latest → Latest} {a : Except Latest Latest} {b : Latest}
    (h : Except.map f a = Except.ok b) : ∃ m, a = Except.ok m ∧ b = f m := by
  cases a with
  | error e => simp [Except.map] at h
  | ok m => exact ⟨m, rfl, by simpa [Except.map] using h.symm⟩

theorem map_error_elim {f : Latest → Latest} {a : Except Latest Latest} {e : Latest}
    (h : Except.map f a = Except.error e) : a = Except.error e := by
  cases a with
  | error e2 => simpa [Except.map] using h
  | ok m => simp [Except.map] at h

theorem setIntField_ok_cases {dict : List (List Char × List Char)} {k : List Char}
    {f : Latest → Int → Latest} {l l' : Latest}
    (h : setIntField dict k f l = Except.ok l') :
    (lookupLast dict k = none ∧ l' = l) ∨
      ∃ s n, lookupLast dict k = some s ∧ pyInt s = some n ∧ l' = f l n := by
  cases hk : lookupLast dict k with
  | none =>
    left
    simp only [setIntField, hk, Except.ok.injEq] at h
    exact ⟨rfl, h.symm⟩
  | some s =>
    right
    cases hp : pyInt s with
    | none => simp [setIntField, hk, hp] at h
    | some n =>
      simp only [setIntField, hk, hp, Except.ok.injEq] at h
      exact ⟨s, n, rfl, hp, h.symm⟩

theorem setIntField_error_eq {dict : List (List Char × List Char)} {k : List Char}
    {f : Latest → Int → Latest} {l e : Latest}
    (h : setIntField dict k f l = Except.error e) : e = l := by
  cases hk : lookupLast dict k with
  | none => simp [setIntField, hk] at h
  | some s =>
    cases hp : pyInt s with
    | none => simp only [setIntField, hk, hp, Except.error.injEq] at h; exact h.symm
    | some n => simp [setIntField, hk, hp] at h

theorem setIntField_of_none {dict : List (List Char × List Char)} {k : List Char}
    (f : Latest → Int → Latest) (l : Latest) (hk : lookupLast dict k = none) :
    setIntField dict k f l = Except.ok l := by
  simp [setIntField, hk]

theorem setIntField_of_some {dict : List (List Char × List Char)} {k : List Char}
    {s : List Char} {n : Int} (f : Latest → Int → Latest) (l : Latest)
    (hk : lookupLast dict k = some s) (hn : pyInt s = some n) :
    setIntField dict k f l = Except.ok (f l n) := by
  simp [setIntField, hk, hn]

/-- If every field setter in the list either does not change the observation
`g` or has no binding in the token dictionary, a successful run leaves `g`
unchanged. -/
theorem applyFields_preserve {γ : Type} {dict : List (List Char × List Char)}
    (g : Latest → γ) :
    ∀ (fields : List (List Char × (Latest → Int → Latest))),
      (∀ p ∈ fields, (∀ c n, g (p.2 c n) = g c) ∨ lookupLast dict p.1 = none) →
      ∀ {l l' : Latest}, applyFields dict fields l = Except.ok l' → g l' = g l := by
  intro fields
  induction fields with
  | nil =>
    intro _ l l' h
    simp only [applyFields, Except.ok.injEq] at h
    rw [← h]
  | cons p rest ih =>
    intro hg l l' h
    obtain ⟨k, f⟩ := p
    cases hs : setIntField dict k f l with
    | error e => simp [applyFields, hs] at h
    | ok l2 =>
      simp only [applyFields, hs] at h
      have h2 : g l' = g l2 := ih (fun q hq => hg q (List.mem_cons_of_mem _ hq)) h
      have h1 : g l2 = g l := by
        rcases setIntField_ok_cases hs with ⟨_, rfl⟩ | ⟨s, n, hk, hn, rfl⟩
        · rfl
        · rcases hg (k, f) (List.mem_cons_self _ _) with hpres | hnone
          · exact hpres l n
          · rw [hnone] at hk; cases hk
      rw [h2, h1]

/-- A failing run also leaves `g` unchanged when every setter preserves `g`:
the carried error value is built from the initial state by setters only. -/
theorem applyFields_error_preserve {γ : Type} {dict : List (List Char × List Char)}
    (g : Latest → γ) :
    ∀ (fields : List (List Char × (Latest → Int → Latest))),
      (∀ p ∈ fields, ∀ c n, g (p.2 c n) = g c) →
      ∀ {l e : Latest}, applyFields dict fields l = Except.error e → g e = g l := by
  intro fields
  induction fields with
  | nil => intro _ l e h; simp [applyFields] at h
  | cons p rest ih =>
    intro hg l e h
    obtain ⟨k, f⟩ := p
    cases hs : setIntField dict k f l with
    | error e2 =>
      simp only [applyFields, hs, Except.error.injEq] at h
      rw [← h, setIntField_error_eq hs]
    | ok l2 =>
      simp only [applyFields, hs] at h
      have h2 : g e = g l2 := ih (fun q hq => hg q (List.mem_cons_of_mem _ hq)) h
      have h1 : g l2 = g l := by
        rcases setIntField_ok_cases hs with ⟨_, rfl⟩ | ⟨s, n, hk, hn, rfl⟩
        · rfl
        · exact hg (k, f) (List.mem_cons_self _ _) l n
      rw [h2, h1]

/-- If the chain contains the entry `(k, f)`, the dictionary binds `k` to `s`,
and the whole chain succeeds, then `int(s)` must have succeeded. -/
theorem applyFields_ok_parses {dict : List (List Char × List Char)}
    {k : List Char} {f : Latest → Int → Latest} {s : List Char} :
    ∀ (fields : List (List Char × (Latest → Int → Latest))),
      (k, f) ∈ fields → lookupLast dict k = some s →
      ∀ {l l' : Latest}, applyFields dict fields l = Except.ok l' →
      ∃ n, pyInt s = some n := by
  intro fields
  induction fields with
  | nil => intro hmem; cases hmem
  | cons p rest ih =>
    intro hmem hk l l' h
    obtain ⟨k2, f2⟩ := p
    cases hs : setIntField dict k2 f2 l with
    | error e => simp [applyFields, hs] at h
    | ok l2 =>
      simp only [applyFields, hs] at h
      rcases List.mem_cons.mp hmem with heq | hmem2
      · cases heq
        rcases setIntField_ok_cases hs with ⟨hnone, -⟩ | ⟨s2, n, hk2, hn2, -⟩
        · rw [hnone] at hk; cases hk
        · rw [hk2] at hk
          obtain rfl := Option.some.inj hk
          exact ⟨n, hn2⟩
      · exact ih hmem2 hk h

/-- If the chain is `pre ++ (k, f) :: post`, the dictionary binds `k` to a
value parsing to `n`, `f` writes `val n` into the observation `g`, and no
applied setter after it changes `g`, then the observation after a successful
run is `val n`. -/
theorem applyFields_set {γ : Type} {dict : List (List Char × List Char)}
    (g : Latest → γ) (val : Int → γ)
    {k : List Char} {f : Latest → Int → Latest} {s : List Char} {n : Int}
    (hf : ∀ c m, g (f c m) = val m)
    (hk : lookupLast dict k = some s) (hn : pyInt s = some n) :
    ∀ (pre post : List (List Char × (Latest → Int → Latest))),
      (∀ p ∈ post, (∀ c m, g (p.2 c m) = g c) ∨ lookupLast dict p.1 = none) →
      ∀ {l l' : Latest},
        applyFields dict (pre ++ (k, f) :: post) l = Except.ok l' → g l' = val n := by
  intro pre
  induction pre with
  | nil =>
    intro post hpost l l' h
    rw [List.nil_append] at h
    simp only [applyFields, setIntField_of_some f l hk hn] at h
    rw [applyFields_preserve g post hpost h, hf]
  | cons q pre ih =>
    intro post hpost l l' h
    obtain ⟨k2, f2⟩ := q
    rw [List.cons_append] at h
    cases hs : setIntField dict k2 f2 l with
    | error e => simp [applyFields, hs] at h
    | ok l2 =>
      simp only [applyFields, hs] at h
      exact ih post hpost h

/-! ### Field-level characterisation of the `latest_data` update -/

/-- What one `if KEY in data_dict:` step of `parse_data` guarantees about a
field on success: an absent key leaves the field, a present key whose value
parses as the integer `n` stores `val n`. -/
def fieldSpec {γ : Type} (dict : List (List Char × List Char)) (key : List Char)
    (val : Int → γ) (old new : γ) : Prop :=
  match lookupLast dict key with
  | none => new = old
  | some s => ∃ n, pyInt s = some n ∧ new = val n

/-- The status token after `parse_data`: the raw `STATUS` value when present,
`'receiving'` otherwise. -/
def statusSpec (dict : List (List Char × List Char)) (st : List Char) : Prop :=
  match lookupLast dict "STATUS".data with
  | none => st = "receiving".data
  | some s => st = s

theorem finishLatest_status {dict : List (List Char × List Char)} (now : Int)
    (l : Latest) : statusSpec dict (finishLatest dict now l).status := by
  unfold statusSpec finishLatest
  cases lookupLast dict "STATUS".data <;> rfl

theorem finishLatest_local_time {dict : List (List Char × List Char)} (now : Int)
    (l : Latest) : (finishLatest dict now l).local_time = some now := by
  unfold finishLatest
  cases lookupLast dict "STATUS".data <;> rfl

/-- Master lemma: if the setter chain is `pre ++ (k, f) :: post`, `f` writes
`val n` into the observation `getF`, and no other setter or the finishing
step changes `getF`, then a successful `latest_data` update satisfies the
per-field contract for `k`. -/
theorem updateLatest_field {γ : Type} (getF : Latest → γ) (val : Int → γ)
    {dict : List (List Char × List Char)} {now : Int} {l0 l' : Latest}
    (k : List Char) (f : Latest → Int → Latest)
    (pre post : List (List Char × (Latest → Int → Latest)))
    (hsplit : fieldSetters = pre ++ (k, f) :: post)
    (hf : ∀ c n, getF (f c n) = val n)
    (hothers : ∀ p ∈ pre ++ post, ∀ c n, getF (p.2 c n) = getF c)
    (hfin : ∀ l : Latest, getF (finishLatest dict now l) = getF l)
    (h : updateLatest dict now l0 = Except.ok l') :
    fieldSpec dict k val (getF l0) (getF l') := by
  obtain ⟨m, hap, rfl⟩ := map_ok_elim h
  rw [hfin]
  unfold fieldSpec
  cases hk : lookupLast dict k with
  | none =>
    refine applyFields_preserve getF fieldSetters ?_ hap
    intro p hp
    rw [hsplit] at hp
    rcases List.mem_append.mp hp with hp | hp
    · exact Or.inl (hothers p (List.mem_append.mpr (Or.inl hp)))
    · rcases List.mem_cons.mp hp with rfl | hp
      · exact Or.inr hk
      · exact Or.inl (hothers p (List.mem_append.mpr (Or.inr hp)))
  | some s =>
    have hmem : (k, f) ∈ fieldSetters := by
      rw [hsplit]
      exact List.mem_append.mpr (Or.inr (List.mem_cons_self _ _))
    obtain ⟨n, hn⟩ := applyFields_ok_parses fieldSetters hmem hk hap
    refine ⟨n, hn, ?_⟩
    have hap2 : applyFields dict (pre ++ (k, f) :: post) l0 = Except.ok m := by
      rw [← hsplit]; exact hap
    refine applyFields_set getF val hf hk hn pre post ?_ hap2
    intro p hp
    exact Or.inl (hothers p (List.mem_append.mpr (Or.inr hp)))

/-- A failing `latest_data` update carries a state in which no setter touched
the status token or the local time: those are only written by the infallible
tail, which is never reached on failure. -/
theorem updateLatest_error_spec {dict : List (List Char × List Char)}
    {now : Int} {l0 e : Latest}
    (h : updateLatest dict now l0 = Except.error e) :
    e.status = l0.status ∧ e.local_time = l0.local_time := by
  have h2 := map_error_elim h
  constructor
  · refine applyFields_error_preserve Latest.status fieldSetters ?_ h2
    intro p hp
    fin_cases hp <;> intro c n <;> rfl
  · refine applyFields_error_preserve Latest.local_time fieldSetters ?_ h2
    intro p hp
    fin_cases hp <;> intro c n <;> rfl

/-- A successful `latest_data` update: per-field contracts for the seven
integer-valued keys, the refreshed local time, and the status rule. -/
theorem updateLatest_spec {dict : List (List Char × List Char)} {now : Int}
    {l0 l' : Latest} (h : updateLatest dict now l0 = Except.ok l') :
    fieldSpec dict "HR".data (fun n => some n) l0.hr l'.hr ∧
    fieldSpec dict "HR_VALID".data (fun n => n != 0) l0.hr_valid l'.hr_valid ∧
    fieldSpec dict "SPO2".data (fun n => some n) l0.spo2 l'.spo2 ∧
    fieldSpec dict "SPO2_VALID".data (fun n => n != 0) l0.spo2_valid l'.spo2_valid ∧
    fieldSpec dict "IR_AVG".data (fun n => some n) l0.ir_avg l'.ir_avg ∧
    fieldSpec dict "IR_RANGE".data (fun n => some n) l0.ir_range l'.ir_range ∧
    fieldSpec dict "TIMESTAMP".data (fun n => some n) l0.timestamp l'.timestamp ∧
    l'.local_time = some now ∧
    statusSpec dict l'.status := by
  refine ⟨?_, ?_, ?_, ?_, ?_, ?_, ?_, ?_, ?_⟩
  · refine updateLatest_field Latest.hr (fun n => some n) "HR".data fsHR.2
      [] [fsHRV, fsSPO2, fsSPO2V, fsIRA, fsIRR, fsTS] rfl (fun c n => rfl) ?_ ?_ h
    · intro p hp; fin_cases hp <;> intro c n <;> rfl
    · intro l; unfold finishLatest; cases lookupLast dict "STATUS".data <;> rfl
  · refine updateLatest_field Latest.hr_valid (fun n => n != 0) "HR_VALID".data fsHRV.2
      [fsHR] [fsSPO2, fsSPO2V, fsIRA, fsIRR, fsTS] rfl (fun c n => rfl) ?_ ?_ h
    · intro p hp; fin_cases hp <;> intro c n <;> rfl
    · intro l; unfold finishLatest; cases lookupLast dict "STATUS".data <;> rfl
  · refine updateLatest_field Latest.spo2 (fun n => some n) "SPO2".data fsSPO2.2
      [fsHR, fsHRV] [fsSPO2V, fsIRA, fsIRR, fsTS] rfl (fun c n => rfl) ?_ ?_ h
    · intro p hp; fin_cases hp <;> intro c n <;> rfl
    · intro l; unfold finishLatest; cases lookupLast dict "STATUS".data <;> rfl
  · refine updateLatest_field Latest.spo2_valid (fun n => n != 0) "SPO2_VALID".data fsSPO2V.2
      [fsHR, fsHRV, fsSPO2] [fsIRA, fsIRR, fsTS] rfl (fun c n => rfl) ?_ ?_ h
    · intro p hp; fin_cases hp <;> intro c n <;> rfl
    · intro l; unfold finishLatest; cases lookupLast dict "STATUS".data <;> rfl
  · refine updateLatest_field Latest.ir_avg (fun n => some n) "IR_AVG".data fsIRA.2
      [fsHR, fsHRV, fsSPO2, fsSPO2V] [fsIRR, fsTS] rfl (fun c n => rfl) ?_ ?_ h
    · intro p hp; fin_cases hp <;> intro c n <;> rfl
    · intro l; unfold finishLatest; cases lookupLast dict "STATUS".data <;> rfl
  · refine updateLatest_field Latest.ir_range (fun n => some n) "IR_RANGE".data fsIRR.2
      [fsHR, fsHRV, fsSPO2, fsSPO2V, fsIRA] [fsTS] rfl (fun c n => rfl) ?_ ?_ h
    · intro p hp; fin_cases hp <;> intro c n <;> rfl
    · intro l; unfold finishLatest; cases lookupLast dict "STATUS".data <;> rfl
  · refine updateLatest_field Latest.timestamp (fun n => some n) "TIMESTAMP".data fsTS.2
      [fsHR, fsHRV, fsSPO2, fsSPO2V, fsIRA, fsIRR] [] rfl (fun c n => rfl) ?_ ?_ h
    · intro p hp; fin_cases hp <;> intro c n <;> rfl
    · intro l; unfold finishLatest; cases lookupLast dict "STATUS".data <;> rfl
  · obtain ⟨m, hap, rfl⟩ := map_ok_elim h
    exact finishLatest_local_time now m
  · obtain ⟨m, hap, rfl⟩ := map_ok_elim h
    exact finishLatest_status now m

/-! ### Decomposition of `parse_data` -/

theorem parse_data_of_error {d : Device} {line : String} {now : Int} {e : Latest}
    (h : updateLatest (frameDict line.data) now d.latest = Except.error e) :
    parse_data d line now = (false, { d with latest := e }) := by
  unfold parse_data
  rw [h]

theorem parse_data_of_ok {d : Device} {line : String} {now : Int} {l : Latest}
    (h : updateLatest (frameDict line.data) now d.latest = Except.ok l) :
    parse_data d line now =
      (true, calculate_metrics (calculate_smoothed_values
        (admitSpo2 (admitHr now { d with latest := l })))) := by
  unfold parse_data
  rw [h]

theorem parse_data_ok_elim {d : Device} {line : String} {now : Int}
    (h : (parse_data d line now).1 = true) :
    ∃ l, updateLatest (frameDict line.data) now d.latest = Except.ok l := by
  cases hu : updateLatest (frameDict line.data) now d.latest with
  | error e => rw [parse_data_of_error hu] at h; cases h
  | ok l => exact ⟨l, rfl⟩

theorem parse_data_error_elim {d : Device} {line : String} {now : Int}
    (h : (parse_data d line now).1 = false) :
    ∃ e, updateLatest (frameDict line.data) now d.latest = Except.error e := by
  cases hu : updateLatest (frameDict line.data) now d.latest with
  | error e => exact ⟨e, rfl⟩
  | ok l => rw [parse_data_of_ok hu] at h; cases h

/-! ### What each pipeline stage leaves untouched -/

theorem admitHr_latest (now : Int) (d : Device) : (admitHr now d).latest = d.latest := by
  unfold admitHr; repeat' split
  all_goals rfl

theorem admitHr_spo2_buffer (now : Int) (d : Device) :
    (admitHr now d).spo2_smoothing_buffer = d.spo2_smoothing_buffer := by
  unfold admitHr; repeat' split
  all_goals rfl

theorem admitHr_smoothed_hr (now : Int) (d : Device) :
    (admitHr now d).smoothed_hr = d.smoothed_hr := by
  unfold admitHr; repeat' split
  all_goals rfl

theorem admitHr_smoothed_spo2 (now : Int) (d : Device) :
    (admitHr now d).smoothed_spo2 = d.smoothed_spo2 := by
  unfold admitHr; repeat' split
  all_goals rfl

theorem admitHr_metrics (now : Int) (d : Device) :
    (admitHr now d).metrics = d.metrics := by
  unfold admitHr; repeat' split
  all_goals rfl

theorem admitSpo2_latest (d : Device) : (admitSpo2 d).latest = d.latest := by
  unfold admitSpo2; repeat' split
  all_goals rfl

theorem admitSpo2_hr_history (d : Device) : (admitSpo2 d).hr_history = d.hr_history := by
  unfold admitSpo2; repeat' split
  all_goals rfl

theorem admitSpo2_timestamp_history (d : Device) :
    (admitSpo2 d).timestamp_history = d.timestamp_history := by
  unfold admitSpo2; repeat' split
  all_goals rfl

theorem admitSpo2_hr_buffer (d : Device) :
    (admitSpo2 d).hr_smoothing_buffer = d.hr_smoothing_buffer := by
  unfold admitSpo2; repeat' split
  all_goals rfl

theorem admitSpo2_smoothed_hr (d : Device) : (admitSpo2 d).smoothed_hr = d.smoothed_hr := by
  unfold admitSpo2; repeat' split
  all_goals rfl

theorem admitSpo2_smoothed_spo2 (d : Device) :
    (admitSpo2 d).smoothed_spo2 = d.smoothed_spo2 := by
  unfold admitSpo2; repeat' split
  all_goals rfl

theorem admitSpo2_metrics (d : Device) : (admitSpo2 d).metrics = d.metrics := by
  unfold admitSpo2; repeat' split
  all_goals rfl

theorem csv_latest (d : Device) : (calculate_smoothed_values d).latest = d.latest := by
  simp only [calculate_smoothed_values]; repeat' split
  all_goals rfl

theorem csv_hr_history (d : Device) :
    (calculate_smoothed_values d).hr_history = d.hr_history := by
  simp only [calculate_smoothed_values]; repeat' split
  all_goals rfl

theorem csv_timestamp_history (d : Device) :
    (calculate_smoothed_values d).timestamp_history = d.timestamp_history := by
  simp only [calculate_smoothed_values]; repeat' split
  all_goals rfl

theorem csv_hr_buffer (d : Device) :
    (calculate_smoothed_values d).hr_smoothing_buffer = d.hr_smoothing_buffer := by
  simp only [calculate_smoothed_values]; repeat' split
  all_goals rfl

theorem csv_spo2_buffer (d : Device) :
    (calculate_smoothed_values d).spo2_smoothing_buffer = d.spo2_smoothing_buffer := by
  simp only [calculate_smoothed_values]; repeat' split
  all_goals rfl

theorem csv_metrics (d : Device) : (calculate_smoothed_values d).metrics = d.metrics := by
  simp only [calculate_smoothed_values]; repeat' split
  all_goals rfl

theorem cm_latest (d : Device) : (calculate_metrics d).latest = d.latest := by
  simp only [calculate_metrics]; repeat' split
  all_goals rfl

theorem cm_hr_history (d : Device) : (calculate_metrics d).hr_history = d.hr_history := by
  simp only [calculate_metrics]; repeat' split
  all_goals rfl

theorem cm_timestamp_history (d : Device) :
    (calculate_metrics d).timestamp_history = d.timestamp_history := by
  simp only [calculate_metrics]; repeat' split
  all_goals rfl

theorem cm_hr_buffer (d : Device) :
    (calculate_metrics d).hr_smoothing_buffer = d.hr_smoothing_buffer := by
  simp only [calculate_metrics]; repeat' split
  all_goals rfl

theorem cm_spo2_buffer (d : Device) :
    (calculate_metrics d).spo2_smoothing_buffer = d.spo2_smoothing_buffer := by
  simp only [calculate_metrics]; repeat' split
  all_goals rfl

theorem cm_smoothed_hr (d : Device) : (calculate_metrics d).smoothed_hr = d.smoothed_hr := by
  simp only [calculate_metrics]; repeat' split
  all_goals rfl

theorem cm_smoothed_spo2 (d : Device) :
    (calculate_metrics d).smoothed_spo2 = d.smoothed_spo2 := by
  simp only [calculate_metrics]; repeat' split
  all_goals rfl

/-! ### Branch behaviour of the pipeline stages -/

theorem admitHr_spec (now : Int) {d : Device} {v : Int}
    (hval : d.latest.hr_valid = true) (hhr : d.latest.hr = some v) :
    admitHr now d =
      if 40 ≤ v ∧ v ≤ 200 then
        { d with hr_history := deqAppend 300 d.hr_history v,
                 timestamp_history := deqAppend 300 d.timestamp_history now,
                 hr_smoothing_buffer := deqAppend 5 d.hr_smoothing_buffer v }
      else d := by
  simp [admitHr, hval, hhr]

theorem admitHr_of_not_valid (now : Int) {d : Device}
    (hval : d.latest.hr_valid = false) : admitHr now d = d := by
  simp [admitHr, hval]

theorem admitHr_of_none (now : Int) {d : Device}
    (hhr : d.latest.hr = none) : admitHr now d = d := by
  unfold admitHr
  rw [hhr]
  split <;> rfl

theorem admitSpo2_spec {d : Device} {v : Int}
    (hval : d.latest.spo2_valid = true) (hs : d.latest.spo2 = some v) :
    admitSpo2 d =
      if 70 ≤ v ∧ v ≤ 100 then
        { d with spo2_smoothing_buffer := deqAppend 5 d.spo2_smoothing_buffer v }
      else d := by
  simp [admitSpo2, hval, hs]

theorem admitSpo2_of_not_valid {d : Device}
    (hval : d.latest.spo2_valid = false) : admitSpo2 d = d := by
  simp [admitSpo2, hval]

theorem admitSpo2_of_none {d : Device}
    (hs : d.latest.spo2 = none) : admitSpo2 d = d := by
  unfold admitSpo2
  rw [hs]
  split <;> rfl

theorem csv_hr_of_ge3 {d : Device} (h : 3 ≤ d.hr_smoothing_buffer.length) :
    (calculate_smoothed_values d).smoothed_hr = some (npMedianInt d.hr_smoothing_buffer) := by
  simp only [calculate_smoothed_values, if_pos h]
  repeat' split
  all_goals rfl

theorem csv_hr_of_small {d : Device} (h1 : 0 < d.hr_smoothing_buffer.length)
    (h2 : d.hr_smoothing_buffer.length < 3) :
    (calculate_smoothed_values d).smoothed_hr = some (npMeanInt d.hr_smoothing_buffer) := by
  simp only [calculate_smoothed_values, if_neg (by omega : ¬ 3 ≤ d.hr_smoothing_buffer.length),
    if_pos h1]
  repeat' split
  all_goals rfl

theorem csv_hr_of_empty {d : Device} (h : d.hr_smoothing_buffer = []) :
    (calculate_smoothed_values d).smoothed_hr = d.smoothed_hr := by
  simp only [calculate_smoothed_values, h, List.length_nil]
  norm_num
  repeat' split
  all_goals rfl

theorem csv_spo2_of_ge3 {d : Device} (h : 3 ≤ d.spo2_smoothing_buffer.length) :
    (calculate_smoothed_values d).smoothed_spo2 = some (npMeanInt d.spo2_smoothing_buffer) := by
  have hb := csv_spo2_buffer d
  simp only [calculate_smoothed_values]
  repeat' split
  all_goals simp_all

theorem csv_spo2_of_small {d : Device} (h1 : 0 < d.spo2_smoothing_buffer.length)
    (h2 : d.spo2_smoothing_buffer.length < 3) :
    (calculate_smoothed_values d).smoothed_spo2 = some ((d.spo2_smoothing_buffer.getLast?).getD 0) := by
  simp only [calculate_smoothed_values]
  repeat' split
  all_goals simp_all
  all_goals omega

theorem csv_spo2_of_empty {d : Device} (h : d.spo2_smoothing_buffer = []) :
    (calculate_smoothed_values d).smoothed_spo2 = d.smoothed_spo2 := by
  simp only [calculate_smoothed_values, h]
  repeat' split
  all_goals simp_all

theorem cm_of_small {d : Device} (h : d.hr_history.length < 2) :
    calculate_metrics d = d := by
  unfold calculate_metrics
  rw [if_pos h]

theorem cm_metrics_of_ge2 {d : Device} (h : 2 ≤ d.hr_history.length) :
    (calculate_metrics d).metrics.bpm = some (npMean d.hr_history) ∧
    (calculate_metrics d).metrics.ipm = some (npMean d.hr_history) ∧
    (calculate_metrics d).metrics.hrstd = some (npStd d.hr_history) ∧
    (calculate_metrics d).metrics.rmssd = some (npRmssd d.hr_history) ∧
    (calculate_metrics d).metrics.avg_spo2 =
      (if d.latest.spo2_valid = true ∧ d.latest.spo2 ≠ none then d.latest.spo2
       else d.metrics.avg_spo2) := by
  simp only [calculate_metrics, if_neg (by omega : ¬ d.hr_history.length < 2), if_pos h]
  refine ⟨?_, ?_, ?_, ?_, ?_⟩
  all_goals split
  all_goals rfl

/-! ### Deque and admission case analysis -/

theorem deqAppend_length (cap : Nat) (xs : List Int) (x : Int) :
    (deqAppend cap xs x).length = min (xs.length + 1) cap := by
  unfold deqAppend
  by_cases h : cap < (xs ++ [x]).length
  · rw [if_pos h]
    rw [List.length_drop]
    rw [List.length_append] at *
    simp at *
    omega
  · rw [if_neg h]
    rw [List.length_append] at *
    simp at *
    omega

theorem admitHr_cases (now : Int) (d : Device) :
    admitHr now d = d ∨
    ∃ v, d.latest.hr_valid = true ∧ d.latest.hr = some v ∧ 40 ≤ v ∧ v ≤ 200 ∧
      admitHr now d =
        { d with hr_history := deqAppend 300 d.hr_history v,
                 timestamp_history := deqAppend 300 d.timestamp_history now,
                 hr_smoothing_buffer := deqAppend 5 d.hr_smoothing_buffer v } := by
  unfold admitHr
  split
  · rename_i hval
    split
    · rename_i v hv
      split
      · rename_i hr
        exact Or.inr ⟨v, hval, hv, hr.1, hr.2, rfl⟩
      · exact Or.inl rfl
    · exact Or.inl rfl
  · exact Or.inl rfl

theorem admitSpo2_cases (d : Device) :
    admitSpo2 d = d ∨
    ∃ v, d.latest.spo2_valid = true ∧ d.latest.spo2 = some v ∧ 70 ≤ v ∧ v ≤ 100 ∧
      admitSpo2 d =
        { d with spo2_smoothing_buffer := deqAppend 5 d.spo2_smoothing_buffer v } := by
  unfold admitSpo2
  split
  · rename_i hval
    split
    · rename_i v hv
      split
      · rename_i hr
        exact Or.inr ⟨v, hval, hv, hr.1, hr.2, rfl⟩
      · exact Or.inl rfl
    · exact Or.inl rfl
  · exact Or.inl rfl

/-- Projections of the state after a successful `parse_data`, reduced to the
three pipeline stages. -/
theorem parse_ok_projections {d : Device} {line : String} {now : Int} {l : Latest}
    (hu : updateLatest (frameDict line.data) now d.latest = Except.ok l) :
    (parse_data d line now).2.latest = l ∧
    (parse_data d line now).2.hr_history =
      (admitHr now { d with latest := l }).hr_history ∧
    (parse_data d line now).2.hr_smoothing_buffer =
      (admitHr now { d with latest := l }).hr_smoothing_buffer ∧
    (parse_data d line now).2.spo2_smoothing_buffer =
      (admitSpo2 (admitHr now { d with latest := l })).spo2_smoothing_buffer ∧
    (parse_data d line now).2.smoothed_hr =
      (calculate_smoothed_values (admitSpo2 (admitHr now { d with latest := l }))).smoothed_hr ∧
    (parse_data d line now).2.smoothed_spo2 =
      (calculate_smoothed_values (admitSpo2 (admitHr now { d with latest := l }))).smoothed_spo2 ∧
    (parse_data d line now).2.metrics =
      (calculate_metrics (calculate_smoothed_values
        (admitSpo2 (admitHr now { d with latest := l })))).metrics := by
  rw [parse_data_of_ok hu]
  dsimp only
  refine ⟨?_, ?_, ?_, ?_, ?_, ?_, rfl⟩
  · rw [cm_latest, csv_latest, admitSpo2_latest, admitHr_latest]
  · rw [cm_hr_history, csv_hr_history, admitSpo2_hr_history]
  · rw [cm_hr_buffer, csv_hr_buffer, admitSpo2_hr_buffer]
  · rw [cm_spo2_buffer, csv_spo2_buffer]
  · rw [cm_smoothed_hr]
  · rw [cm_smoothed_spo2]

/-! ### State invariants along reachable states -/

/-- Invariant tying the smoothed display values to the smoothing buffers:
exactly the contract of `calculate_smoothed_values`, plus "no sample ever
admitted ⇒ no smoothed value". -/
def SmoothInv (d : Device) : Prop :=
  (d.hr_smoothing_buffer = [] → d.smoothed_hr = none) ∧
  (3 ≤ d.hr_smoothing_buffer.length →
      d.smoothed_hr = some (npMedianInt d.hr_smoothing_buffer)) ∧
  (0 < d.hr_smoothing_buffer.length → d.hr_smoothing_buffer.length < 3 →
      d.smoothed_hr = some (npMeanInt d.hr_smoothing_buffer)) ∧
  (d.spo2_smoothing_buffer = [] → d.smoothed_spo2 = none) ∧
  (3 ≤ d.spo2_smoothing_buffer.length →
      d.smoothed_spo2 = some (npMeanInt d.spo2_smoothing_buffer)) ∧
  (0 < d.spo2_smoothing_buffer.length → d.spo2_smoothing_buffer.length < 3 →
      d.smoothed_spo2 = some ((d.spo2_smoothing_buffer.getLast?).getD 0))

theorem smoothInv_step {d d' : Device} (hst : Step d d') (ih : SmoothInv d) :
    SmoothInv d' := by
  cases hst with
  | conn tok =>
    cases hm : d.mac_address with
    | none => simp only [connect, hm]; exact ih
    | some m =>
      cases tok
      · simp only [connect, hm, Bool.false_eq_true, if_false]; exact ih
      · simp only [connect, hm, if_true]; exact ih
  | disc => exact ih
  | rxError => exact ih
  | parse line now =>
    cases hu : updateLatest (frameDict line.data) now d.latest with
    | error e =>
      rw [parse_data_of_error hu]
      exact ih
    | ok l =>
      obtain ⟨-, -, hbufP, hbufP2, hsmP, hsmP2, -⟩ := parse_ok_projections hu
      have hbufAB : (admitSpo2 (admitHr now { d with latest := l })).hr_smoothing_buffer
          = (admitHr now { d with latest := l }).hr_smoothing_buffer :=
        admitSpo2_hr_buffer _
      have hsmAB : (admitSpo2 (admitHr now { d with latest := l })).smoothed_hr
          = (admitHr now { d with latest := l }).smoothed_hr := admitSpo2_smoothed_hr _
      have hsmBd : (admitHr now { d with latest := l }).smoothed_hr = d.smoothed_hr := by
        rw [admitHr_smoothed_hr]
      have hsm2Ad : (admitSpo2 (admitHr now { d with latest := l })).smoothed_spo2
          = d.smoothed_spo2 := by
        rw [admitSpo2_smoothed_spo2, admitHr_smoothed_spo2]
      have hspbufBd : (admitHr now { d with latest := l }).spo2_smoothing_buffer
          = d.spo2_smoothing_buffer := by
        rw [admitHr_spo2_buffer]
      refine ⟨fun h1 => ?_, fun h1 => ?_, fun h1 h2 => ?_,
        fun h1 => ?_, fun h1 => ?_, fun h1 h2 => ?_⟩
      · rw [hbufP] at h1
        have hAempty : (admitSpo2 (admitHr now { d with latest := l })).hr_smoothing_buffer
            = [] := by
          rw [hbufAB]; exact h1
        rw [hsmP, csv_hr_of_empty hAempty, hsmAB, hsmBd]
        rcases admitHr_cases now { d with latest := l } with hc | ⟨v, -, -, -, -, hc⟩
        · apply ih.1
          rw [hc] at h1
          exact h1
        · rw [hc] at h1
          have hlen := congrArg List.length h1
          rw [deqAppend_length] at hlen
          simp at hlen
      · rw [hbufP] at h1
        rw [hsmP, csv_hr_of_ge3 (by rw [hbufAB]; exact h1), hbufAB, hbufP]
      · rw [hbufP] at h1 h2
        rw [hsmP, csv_hr_of_small (by rw [hbufAB]; exact h1) (by rw [hbufAB]; exact h2),
          hbufAB, hbufP]
      · rw [hbufP2] at h1
        rw [hsmP2, csv_spo2_of_empty h1, hsm2Ad]
        rcases admitSpo2_cases (admitHr now { d with latest := l }) with hc | ⟨v, -, -, -, -, hc⟩
        · apply ih.2.2.2.1
          rw [hc, hspbufBd] at h1
          exact h1
        · rw [hc] at h1
          have hlen := congrArg List.length h1
          rw [deqAppend_length] at hlen
          simp at hlen
      · rw [hbufP2] at h1
        rw [hsmP2, csv_spo2_of_ge3 h1, hbufP2]
      · rw [hbufP2] at h1 h2
        rw [hsmP2, csv_spo2_of_small h1 h2, hbufP2]

/-- Invariant tying the metrics dictionary to the history window: below two
samples every metric is still unset; from two samples on the four
history-derived metrics always reflect the current window. -/
def MetricsInv (d : Device) : Prop :=
  (d.hr_history.length < 2 →
      d.metrics.bpm = none ∧ d.metrics.ipm = none ∧ d.metrics.hrstd = none ∧
      d.metrics.rmssd = none ∧ d.metrics.avg_spo2 = none) ∧
  (2 ≤ d.hr_history.length →
      d.metrics.bpm = some (npMean d.hr_history) ∧
      d.metrics.ipm = some (npMean d.hr_history) ∧
      d.metrics.hrstd = some (npStd d.hr_history) ∧
      d.metrics.rmssd = some (npRmssd d.hr_history))

theorem metricsInv_step {d d' : Device} (hst : Step d d') (ih : MetricsInv d) :
    MetricsInv d' := by
  cases hst with
  | conn tok =>
    cases hm : d.mac_address with
    | none => simp only [connect, hm]; exact ih
    | some m =>
      cases tok
      · simp only [connect, hm, Bool.false_eq_true, if_false]; exact ih
      · simp only [connect, hm, if_true]; exact ih
  | disc => exact ih
  | rxError => exact ih
  | parse line now =>
    cases hu : updateLatest (frameDict line.data) now d.latest with
    | error e =>
      rw [parse_data_of_error hu]
      exact ih
    | ok l =>
      obtain ⟨-, hhisP, -, -, -, -, hmetP⟩ := parse_ok_projections hu
      have hhisCA : (calculate_smoothed_values
            (admitSpo2 (admitHr now { d with latest := l }))).hr_history
          = (admitHr now { d with latest := l }).hr_history := by
        rw [csv_hr_history, admitSpo2_hr_history]
      have hmetCA : (calculate_smoothed_values
            (admitSpo2 (admitHr now { d with latest := l }))).metrics = d.metrics := by
        rw [csv_metrics, admitSpo2_metrics, admitHr_metrics]
      by_cases hlen : 2 ≤ (admitHr now { d with latest := l }).hr_history.length
      · obtain ⟨hb, hi, hs, hrm, -⟩ := cm_metrics_of_ge2
          (d := calculate_smoothed_values (admitSpo2 (admitHr now { d with latest := l })))
          (by rw [hhisCA]; exact hlen)
        refine ⟨fun h1 => ?_, fun h1 => ?_⟩
        · rw [hhisP] at h1; omega
        · rw [hmetP, hb, hi, hs, hrm, hhisCA, hhisP]
          exact ⟨rfl, rfl, rfl, rfl⟩
      · have hsmallC : (calculate_smoothed_values
            (admitSpo2 (admitHr now { d with latest := l }))).hr_history.length < 2 := by
          rw [hhisCA]; omega
        have hcm := cm_of_small hsmallC
        have hdlen : d.hr_history.length < 2 := by
          rcases admitHr_cases now { d with latest := l } with hc | ⟨v, -, -, -, -, hc⟩
          · rw [hc] at hlen
            have hlen2 : ¬ 2 ≤ d.hr_history.length := hlen
            omega
          · rw [hc] at hlen
            have hlen2 : ¬ 2 ≤ (deqAppend 300 d.hr_history v).length := hlen
            rw [deqAppend_length] at hlen2
            omega
        refine ⟨fun h1 => ?_, fun h1 => ?_⟩
        · rw [hmetP, hcm, hmetCA]
          exact ih.1 hdlen
        · rw [hhisP] at h1
          exact absurd h1 hlen

theorem smoothInv_reachable {d : Device} (h : Reachable d) : SmoothInv d := by
  induction h with
  | init mac =>
    refine ⟨fun _ => rfl, fun h1 => ?_, fun h1 h2 => ?_, fun _ => rfl,
      fun h1 => ?_, fun h1 h2 => ?_⟩
    · simp [initDevice] at h1
    · simp [initDevice] at h1
    · simp [initDevice] at h1
    · simp [initDevice] at h1
  | step hre hst ih => exact smoothInv_step hst ih

theorem metricsInv_reachable {d : Device} (h : Reachable d) : MetricsInv d := by
  induction h with
  | init mac =>
    refine ⟨fun _ => ⟨rfl, rfl, rfl, rfl, rfl⟩, fun h1 => ?_⟩
    simp [initDevice] at h1
  | step hre hst ih => exact metricsInv_step hst ih

/-- Any run of `parse_data` calls starting from a reachable state stays in
the reachable set. -/
theorem reachable_runFrames {d : Device} (h : Reachable d) :
    ∀ L : List (String × Int), Reachable (runFrames d L) := by
  intro L
  induction L generalizing d with
  | nil => exact h
  | cons p rest ih =>
    obtain ⟨line, now⟩ := p
    exact ih (Reachable.step h (Step.parse d line now))

/-! ### Concrete metric values -/

theorem npMean_60s : npMean [60, 60, 60, 60] = 60 := by
  norm_num [npMean]

theorem variancePop_60s : variancePop [60, 60, 60, 60] = 0 := by
  norm_num [variancePop, npMean]

theorem npStd_60s : npStd [60, 60, 60, 60] = 0 := by
  unfold npStd
  rw [variancePop_60s]
  norm_num

theorem npRmssd_60s : npRmssd [60, 60, 60, 60] = 0 := by
  unfold npRmssd
  have hd : npDiff [60, 60, 60, 60] = [0, 0, 0] := by decide
  rw [hd]
  have hm : meanSq [0, 0, 0] = 0 := by norm_num [meanSq]
  rw [hm]
  norm_num

theorem variancePop_6062 : variancePop [60, 62] = 1 := by
  norm_num [variancePop, npMean]

theorem npStd_6062 : npStd [60, 62] = 1 := by
  unfold npStd
  rw [variancePop_6062]
  norm_num

theorem specSampleStd_6062 : specSampleStd [60, 62] = Real.sqrt 2 := by
  unfold specSampleStd
  have h2 : ((([60, 62] : List Int).map (fun x => ((x : ℚ) - npMean [60, 62]) ^ 2)).sum /
      ((([60, 62] : List Int).length : ℚ) - 1)) = 2 := by
    norm_num [npMean]
  rw [h2]
  norm_num

theorem one_lt_sqrt_two : (1 : ℝ) < Real.sqrt 2 := by
  have h := Real.sqrt_lt_sqrt (by norm_num : (0:ℝ) ≤ 1) (by norm_num : (1:ℝ) < 2)
  rwa [Real.sqrt_one] at h

/-! ### Claim theorems -/

/-- C9: `disconnect()` is idempotent and safe from every state — a second
call yields exactly the same terminal state as the first (connection flag
false, status `disconnected`), including on a device that was never
connected; the embedded `disconnect` is total, so no error is raised. -/
theorem disconnect_idempotent (d : Device) :
    disconnect (disconnect d) = disconnect d ∧
    (disconnect d).connected = false ∧
    (disconnect d).latest.status = "disconnected".data :=
  ⟨rfl, rfl, rfl⟩

/-- C8 (amended): `connect()` never raises (the embedding is total); with a
MAC address it returns success/failure with status `connected`/`error`
matching the transport outcome; but with a missing MAC address it returns
failure leaving the device state — including its status — completely
unchanged, rather than recording an Error condition. -/
theorem connect_cases (d : Device) (transportOk : Bool) :
    (d.mac_address = none → connect d transportOk = (false, d)) ∧
    (d.mac_address ≠ none → transportOk = true →
      (connect d transportOk).1 = true ∧
      (connect d transportOk).2.connected = true ∧
      (connect d transportOk).2.latest.status = "connected".data) ∧
    (d.mac_address ≠ none → transportOk = false →
      (connect d transportOk).1 = false ∧
      (connect d transportOk).2.connected = false ∧
      (connect d transportOk).2.latest.status = "error".data) := by
  refine ⟨fun h => ?_, fun h ht => ?_, fun h ht => ?_⟩
  · simp [connect, h]
  · cases hm : d.mac_address with
    | none => exact absurd hm h
    | some m => subst ht; simp [connect, hm]
  · cases hm : d.mac_address with
    | none => exact absurd hm h
    | some m => subst ht; simp [connect, hm]

theorem connect_cases_witness :
    connect (initDevice none) false = (false, initDevice none) ∧
    ((connect (initDevice (some "AA".data)) true).1 = true ∧
      (connect (initDevice (some "AA".data)) true).2.connected = true ∧
      (connect (initDevice (some "AA".data)) true).2.latest.status = "connected".data) ∧
    ((connect (initDevice (some "AA".data)) false).1 = false ∧
      (connect (initDevice (some "AA".data)) false).2.connected = false ∧
      (connect (initDevice (some "AA".data)) false).2.latest.status = "error".data) :=
  ⟨(connect_cases (initDevice none) false).1 rfl,
   (connect_cases (initDevice (some "AA".data)) true).2.1 (by decide) rfl,
   (connect_cases (initDevice (some "AA".data)) false).2.2 (by decide) rfl⟩

/-- C8 counterexample: on a device with no connection target, `connect`
returns failure but the status stays `disconnected` — it does not reflect an
Error condition, contradicting the claim as stated. -/
theorem connect_missing_target_status :
    (connect (initDevice none) true).1 = false ∧
    (connect (initDevice none) true).2.latest.status = "disconnected".data ∧
    "disconnected".data ≠ "error".data :=
  ⟨rfl, rfl, by decide⟩

/-- C3 (amended): a decode failure makes `parse_data` return `False` (never
an exception — the embedding is total), and leaves the history window, both
smoothing buffers, both smoothed values, the metrics, the connection flag and
even the status/local-time entries of the latest reading unchanged.  The
integer fields of the latest reading that were parsed *before* the failing
token, however, keep their new values (the claim's "state left exactly as
before" fails there, see the counterexample). -/
theorem parse_failure_preserves_pipeline_state (d : Device) (line : String) (now : Int)
    (hfail : (parse_data d line now).1 = false) :
    (parse_data d line now).2.hr_history = d.hr_history ∧
    (parse_data d line now).2.timestamp_history = d.timestamp_history ∧
    (parse_data d line now).2.hr_smoothing_buffer = d.hr_smoothing_buffer ∧
    (parse_data d line now).2.spo2_smoothing_buffer = d.spo2_smoothing_buffer ∧
    (parse_data d line now).2.smoothed_hr = d.smoothed_hr ∧
    (parse_data d line now).2.smoothed_spo2 = d.smoothed_spo2 ∧
    (parse_data d line now).2.metrics = d.metrics ∧
    (parse_data d line now).2.latest.status = d.latest.status ∧
    (parse_data d line now).2.latest.local_time = d.latest.local_time ∧
    (parse_data d line now).2.connected = d.connected := by
  obtain ⟨e, hu⟩ := parse_data_error_elim hfail
  obtain ⟨hst, hlt⟩ := updateLatest_error_spec hu
  rw [parse_data_of_error hu]
  exact ⟨rfl, rfl, rfl, rfl, rfl, rfl, rfl, hst, hlt, rfl⟩

theorem parse_failure_preserves_pipeline_state_witness :
    (parse_data (initDevice none) "HR:abc" 5).2.hr_history = (initDevice none).hr_history ∧
    (parse_data (initDevice none) "HR:abc" 5).2.timestamp_history = (initDevice none).timestamp_history ∧
    (parse_data (initDevice none) "HR:abc" 5).2.hr_smoothing_buffer = (initDevice none).hr_smoothing_buffer ∧
    (parse_data (initDevice none) "HR:abc" 5).2.spo2_smoothing_buffer = (initDevice none).spo2_smoothing_buffer ∧
    (parse_data (initDevice none) "HR:abc" 5).2.smoothed_hr = (initDevice none).smoothed_hr ∧
    (parse_data (initDevice none) "HR:abc" 5).2.smoothed_spo2 = (initDevice none).smoothed_spo2 ∧
    (parse_data (initDevice none) "HR:abc" 5).2.metrics = (initDevice none).metrics ∧
    (parse_data (initDevice none) "HR:abc" 5).2.latest.status = (initDevice none).latest.status ∧
    (parse_data (initDevice none) "HR:abc" 5).2.latest.local_time = (initDevice none).latest.local_time ∧
    (parse_data (initDevice none) "HR:abc" 5).2.connected = (initDevice none).connected :=
  parse_failure_preserves_pipeline_state (initDevice none) "HR:abc" 5 (by decide)

/-- C3 counterexample: the line `HR:50,SPO2:abc` fails to decode (returns
`False`), yet the latest-reading heart-rate field has already been mutated
from unset to 50 — the device state is *not* left exactly as before the
call. -/
theorem parse_failure_mutates_latest :
    (parse_data (initDevice none) "HR:50,SPO2:abc" 0).1 = false ∧
    (parse_data (initDevice none) "HR:50,SPO2:abc" 0).2.latest.hr = some 50 ∧
    (initDevice none).latest.hr = none :=
  ⟨by decide, by decide, rfl⟩

/-- C2: for any parsed frame, the (valid) heart-rate sample `v` it leaves in
the latest reading enters the history window and heart-rate smoothing buffer
if and only if `40 ≤ v ≤ 200`, and the SpO2 sample `s` enters the SpO2
smoothing buffer if and only if `70 ≤ s ≤ 100`; otherwise the window and
buffers are unchanged. -/
theorem admission_range_iff (d : Device) (line : String) (now : Int)
    (hok : (parse_data d line now).1 = true) :
    (∀ v : Int,
      (parse_data d line now).2.latest.hr_valid = true →
      (parse_data d line now).2.latest.hr = some v →
        ((40 ≤ v ∧ v ≤ 200 →
            (parse_data d line now).2.hr_history = deqAppend 300 d.hr_history v ∧
            (parse_data d line now).2.hr_smoothing_buffer = deqAppend 5 d.hr_smoothing_buffer v) ∧
          (¬(40 ≤ v ∧ v ≤ 200) →
            (parse_data d line now).2.hr_history = d.hr_history ∧
            (parse_data d line now).2.hr_smoothing_buffer = d.hr_smoothing_buffer))) ∧
    (∀ s : Int,
      (parse_data d line now).2.latest.spo2_valid = true →
      (parse_data d line now).2.latest.spo2 = some s →
        ((70 ≤ s ∧ s ≤ 100 →
            (parse_data d line now).2.spo2_smoothing_buffer = deqAppend 5 d.spo2_smoothing_buffer s) ∧
          (¬(70 ≤ s ∧ s ≤ 100) →
            (parse_data d line now).2.spo2_smoothing_buffer = d.spo2_smoothing_buffer))) := by
  obtain ⟨l, hu⟩ := parse_data_ok_elim hok
  obtain ⟨hlat, hhisP, hbufP, hbufP2, -, -, -⟩ := parse_ok_projections hu
  constructor
  · intro v hval hhr
    rw [hlat] at hval hhr
    have hspec := admitHr_spec now (d := { d with latest := l }) (v := v) hval hhr
    constructor
    · intro hrange
      rw [hspec, if_pos hrange] at hhisP hbufP
      exact ⟨hhisP, hbufP⟩
    · intro hrange
      rw [hspec, if_neg hrange] at hhisP hbufP
      exact ⟨hhisP, hbufP⟩
  · intro s hval hs
    rw [hlat] at hval hs
    have hvalB : (admitHr now { d with latest := l }).latest.spo2_valid = true := by
      rw [admitHr_latest]; exact hval
    have hsB : (admitHr now { d with latest := l }).latest.spo2 = some s := by
      rw [admitHr_latest]; exact hs
    have hspec := admitSpo2_spec hvalB hsB
    have hbufB : (admitHr now { d with latest := l }).spo2_smoothing_buffer
        = d.spo2_smoothing_buffer := by
      rw [admitHr_spo2_buffer]
    constructor
    · intro hrange
      rw [hspec, if_pos hrange] at hbufP2
      refine hbufP2.trans ?_
      show deqAppend 5 (admitHr now { d with latest := l }).spo2_smoothing_buffer s = _
      rw [hbufB]
    · intro hrange
      rw [hspec, if_neg hrange] at hbufP2
      exact hbufP2.trans hbufB

theorem admission_range_iff_witness :
    ((parse_data (initDevice none) "HR:80,HR_VALID:1,SPO2:95,SPO2_VALID:1" 0).2.hr_history
        = deqAppend 300 (initDevice none).hr_history 80 ∧
      (parse_data (initDevice none) "HR:80,HR_VALID:1,SPO2:95,SPO2_VALID:1" 0).2.hr_smoothing_buffer
        = deqAppend 5 (initDevice none).hr_smoothing_buffer 80) ∧
    (parse_data (initDevice none) "HR:80,HR_VALID:1,SPO2:95,SPO2_VALID:1" 0).2.spo2_smoothing_buffer
        = deqAppend 5 (initDevice none).spo2_smoothing_buffer 95 :=
  ⟨((admission_range_iff (initDevice none) "HR:80,HR_VALID:1,SPO2:95,SPO2_VALID:1" 0
        (by decide)).1 80 (by decide) (by decide)).1 (by decide),
   ((admission_range_iff (initDevice none) "HR:80,HR_VALID:1,SPO2:95,SPO2_VALID:1" 0
        (by decide)).2 95 (by decide) (by decide)).1 (by decide)⟩

/-- C7 (amended): after a successfully parsed frame whose latest reading
carries a valid SpO2 sample `s` in `[70, 100]`, the `avg_spo2` metric equals
`s` *provided* the heart-rate history window holds at least two samples at
that point — `calculate_metrics` returns before the passthrough whenever the
window is smaller, so the passthrough does depend on the heart-rate history
(see the counterexample). -/
theorem avg_spo2_passthrough (d : Device) (line : String) (now : Int) (s : Int)
    (hok : (parse_data d line now).1 = true)
    (hval : (parse_data d line now).2.latest.spo2_valid = true)
    (hs : (parse_data d line now).2.latest.spo2 = some s)
    (_hrange : 70 ≤ s ∧ s ≤ 100)
    (hlen : 2 ≤ (parse_data d line now).2.hr_history.length) :
    (parse_data d line now).2.metrics.avg_spo2 = some s := by
  obtain ⟨l, hu⟩ := parse_data_ok_elim hok
  obtain ⟨hlat, hhisP, -, -, -, -, hmetP⟩ := parse_ok_projections hu
  rw [hlat] at hval hs
  have hlatC : (calculate_smoothed_values
      (admitSpo2 (admitHr now { d with latest := l }))).latest = l := by
    rw [csv_latest, admitSpo2_latest, admitHr_latest]
  have hhisC : (calculate_smoothed_values
      (admitSpo2 (admitHr now { d with latest := l }))).hr_history
      = (admitHr now { d with latest := l }).hr_history := by
    rw [csv_hr_history, admitSpo2_hr_history]
  rw [hhisP] at hlen
  obtain ⟨-, -, -, -, havg⟩ := cm_metrics_of_ge2
    (d := calculate_smoothed_values (admitSpo2 (admitHr now { d with latest := l })))
    (by rw [hhisC]; exact hlen)
  rw [hmetP, havg, hlatC]
  rw [if_pos ⟨hval, by rw [hs]; exact Option.some_ne_none s⟩]
  exact hs

theorem avg_spo2_passthrough_witness :
    (parse_data (runFrames (initDevice none)
        [("HR:60,HR_VALID:1", 0), ("HR:62,HR_VALID:1", 1)])
      "SPO2:95,SPO2_VALID:1" 2).2.metrics.avg_spo2 = some 95 :=
  avg_spo2_passthrough
    (runFrames (initDevice none) [("HR:60,HR_VALID:1", 0), ("HR:62,HR_VALID:1", 1)])
    "SPO2:95,SPO2_VALID:1" 2 95
    (by decide) (by decide) (by decide) (by decide) (by decide)

/-- C7 counterexample: a fresh device parses a frame with a valid, in-range
SpO2 of 95 — the sample is admitted into the SpO2 smoothing buffer, yet the
`avg_spo2` metric stays unset because the heart-rate history holds fewer than
two samples; the passthrough therefore does not equal the latest admitted
valid SpO2 reading. -/
theorem avg_spo2_stale_without_history :
    (parse_data (initDevice none) "SPO2:95,SPO2_VALID:1" 0).1 = true ∧
    (parse_data (initDevice none) "SPO2:95,SPO2_VALID:1" 0).2.latest.spo2_valid = true ∧
    (parse_data (initDevice none) "SPO2:95,SPO2_VALID:1" 0).2.latest.spo2 = some 95 ∧
    (parse_data (initDevice none) "SPO2:95,SPO2_VALID:1" 0).2.spo2_smoothing_buffer = [95] ∧
    (parse_data (initDevice none) "SPO2:95,SPO2_VALID:1" 0).2.metrics.avg_spo2 = none :=
  ⟨by decide, by decide, by decide, by decide, by decide⟩

/-- C6 (amended): in every reachable state whose history window holds at
least two samples, the `hrstd` metric is the *population* standard deviation
of the window (`np.std` with its default `ddof = 0`), not the sample standard
deviation. -/
theorem hrstd_is_population_std (d : Device) (hreach : Reachable d)
    (hlen : 2 ≤ d.hr_history.length) :
    d.metrics.hrstd = some (npStd d.hr_history) :=
  ((metricsInv_reachable hreach).2 hlen).2.2.1

theorem hrstd_is_population_std_witness :
    (runFrames (initDevice none) [("HR:60,HR_VALID:1", 0), ("HR:62,HR_VALID:1", 1)]).metrics.hrstd
      = some (npStd (runFrames (initDevice none)
          [("HR:60,HR_VALID:1", 0), ("HR:62,HR_VALID:1", 1)]).hr_history) :=
  hrstd_is_population_std
    (runFrames (initDevice none) [("HR:60,HR_VALID:1", 0), ("HR:62,HR_VALID:1", 1)])
    (reachable_runFrames (Reachable.init none) _) (by decide)

/-- C6 counterexample: after admitting exactly 60 and 62 the stored `hrstd`
is 1 (population: divide by n), while the sample standard deviation of the
same window (divide by n − 1) is √2 — the claim's formula does not match the
code. -/
theorem hrstd_not_sample_std :
    (runFrames (initDevice none)
        [("HR:60,HR_VALID:1", 0), ("HR:62,HR_VALID:1", 1)]).metrics.hrstd
      ≠ some (specSampleStd (runFrames (initDevice none)
          [("HR:60,HR_VALID:1", 0), ("HR:62,HR_VALID:1", 1)]).hr_history) := by
  have hreach : Reachable (runFrames (initDevice none)
      [("HR:60,HR_VALID:1", 0), ("HR:62,HR_VALID:1", 1)]) :=
    reachable_runFrames (Reachable.init none) _
  have hhist : (runFrames (initDevice none)
      [("HR:60,HR_VALID:1", 0), ("HR:62,HR_VALID:1", 1)]).hr_history = [60, 62] := by decide
  have hstd := ((metricsInv_reachable hreach).2 (by rw [hhist]; norm_num)).2.2.1
  rw [hstd, hhist]
  rw [hhist] at hstd
  intro hcontra
  rw [npStd_6062, specSampleStd_6062] at hcontra
  have h1 := Option.some.inj hcontra
  have h2 := one_lt_sqrt_two
  rw [h1] at h2
  exact lt_irrefl _ h2

/-- C5: in every reachable state, a history window of exactly
`[60, 60, 60, 60]` gives mean 60, standard deviation 0 and RMSSD 0, and with
fewer than two admitted samples all history-derived metrics are still unset
(absent, not zero). -/
theorem metrics_on_steady_history (d : Device) (hreach : Reachable d) :
    (d.hr_history = [60, 60, 60, 60] →
      d.metrics.bpm = some 60 ∧ d.metrics.hrstd = some 0 ∧ d.metrics.rmssd = some 0) ∧
    (d.hr_history.length < 2 →
      d.metrics.bpm = none ∧ d.metrics.ipm = none ∧
      d.metrics.hrstd = none ∧ d.metrics.rmssd = none) := by
  have hinv := metricsInv_reachable hreach
  constructor
  · intro hh
    have hlen : 2 ≤ d.hr_history.length := by rw [hh]; norm_num
    obtain ⟨hb, -, hs, hrm⟩ := hinv.2 hlen
    rw [hh] at hb hs hrm
    refine ⟨?_, ?_, ?_⟩
    · rw [hb, npMean_60s]
    · rw [hs, npStd_60s]
    · rw [hrm, npRmssd_60s]
  · intro hlen
    obtain ⟨hb, hi, hs, hrm, -⟩ := hinv.1 hlen
    exact ⟨hb, hi, hs, hrm⟩

theorem metrics_on_steady_history_witness :
    ((runFrames (initDevice none)
        [("HR:60,HR_VALID:1", 0), ("HR:60,HR_VALID:1", 1),
         ("HR:60,HR_VALID:1", 2), ("HR:60,HR_VALID:1", 3)]).metrics.bpm = some 60 ∧
      (runFrames (initDevice none)
        [("HR:60,HR_VALID:1", 0), ("HR:60,HR_VALID:1", 1),
         ("HR:60,HR_VALID:1", 2), ("HR:60,HR_VALID:1", 3)]).metrics.hrstd = some 0 ∧
      (runFrames (initDevice none)
        [("HR:60,HR_VALID:1", 0), ("HR:60,HR_VALID:1", 1),
         ("HR:60,HR_VALID:1", 2), ("HR:60,HR_VALID:1", 3)]).metrics.rmssd = some 0) ∧
    ((initDevice none).metrics.bpm = none ∧ (initDevice none).metrics.ipm = none ∧
      (initDevice none).metrics.hrstd = none ∧ (initDevice none).metrics.rmssd = none) :=
  ⟨(metrics_on_steady_history _ (reachable_runFrames (Reachable.init none) _)).1 (by decide),
   (metrics_on_steady_history _ (Reachable.init none)).2 (by decide)⟩

/-- C4: in every reachable state the smoothed heart rate follows the
policy of `calculate_smoothed_values` — median of the buffer from three
samples on, arithmetic mean for one or two, absent for an empty buffer — and
offering exactly the admitted sequence 72, 75, 200, 74, 73 to an initially
empty filter ends with the buffer `[72, 75, 200, 74, 73]` and a smoothed
value of 74; the intermediate smoothed values along that sequence are 72, 73,
75 and 74, never a value near 200. -/
theorem smoothing_policy (d : Device) (hreach : Reachable d) :
    (3 ≤ d.hr_smoothing_buffer.length →
        d.smoothed_hr = some (npMedianInt d.hr_smoothing_buffer)) ∧
    (0 < d.hr_smoothing_buffer.length → d.hr_smoothing_buffer.length < 3 →
        d.smoothed_hr = some (npMeanInt d.hr_smoothing_buffer)) ∧
    (d.hr_smoothing_buffer = [] → d.smoothed_hr = none) ∧
    (d.hr_smoothing_buffer = [72, 75, 200, 74, 73] → d.smoothed_hr = some 74) ∧
    (d.hr_smoothing_buffer = [72] → d.smoothed_hr = some 72) ∧
    (d.hr_smoothing_buffer = [72, 75] → d.smoothed_hr = some 73) ∧
    (d.hr_smoothing_buffer = [72, 75, 200] → d.smoothed_hr = some 75) ∧
    (d.hr_smoothing_buffer = [72, 75, 200, 74] → d.smoothed_hr = some 74) := by
  obtain ⟨he, h3, h12, -, -, -⟩ := smoothInv_reachable hreach
  refine ⟨h3, h12, he, fun hb => ?_, fun hb => ?_, fun hb => ?_, fun hb => ?_, fun hb => ?_⟩
  · rw [h3 (by rw [hb]; norm_num), hb]
    decide
  · rw [h12 (by rw [hb]; norm_num) (by rw [hb]; norm_num), hb]
    decide
  · rw [h12 (by rw [hb]; norm_num) (by rw [hb]; norm_num), hb]
    decide
  · rw [h3 (by rw [hb]; norm_num), hb]
    decide
  · rw [h3 (by rw [hb]; norm_num), hb]
    decide

theorem smoothing_policy_witness :
    (runFrames (initDevice none)
      [("HR:72,HR_VALID:1", 0), ("HR:75,HR_VALID:1", 1), ("HR:200,HR_VALID:1", 2),
       ("HR:74,HR_VALID:1", 3), ("HR:73,HR_VALID:1", 4)]).smoothed_hr = some 74 ∧
    (runFrames (initDevice none)
      [("HR:72,HR_VALID:1", 0), ("HR:75,HR_VALID:1", 1)]).smoothed_hr = some 73 ∧
    (runFrames (initDevice none)
      [("HR:72,HR_VALID:1", 0), ("HR:75,HR_VALID:1", 1),
       ("HR:200,HR_VALID:1", 2)]).smoothed_hr = some 75 ∧
    (initDevice none).smoothed_hr = none :=
  ⟨(smoothing_policy _ (reachable_runFrames (Reachable.init none) _)).2.2.2.1 (by decide),
   (smoothing_policy _ (reachable_runFrames (Reachable.init none) _)).2.2.2.2.2.1 (by decide),
   (smoothing_policy _ (reachable_runFrames (Reachable.init none) _)).2.2.2.2.2.2.1 (by decide),
   (smoothing_policy _ (Reachable.init none)).2.2.1 rfl⟩

/-- C1 (amended): a frame with zero `KEY:VALUE` tokens parses successfully
and only refreshes the local time and the default `receiving` status; in
general, a successfully parsed frame updates exactly the fields whose keys
are present (with the parsed value) while every field whose key is absent
*retains its previous value* — on a fresh device that means unset, but after
earlier frames the old values persist (see the counterexample). -/
theorem parse_updates_exactly_present_keys (d : Device) (line : String) (now : Int) :
    (frameDict line.data = [] →
      (parse_data d line now).1 = true ∧
      (parse_data d line now).2.latest =
        { d.latest with local_time := some now, status := "receiving".data }) ∧
    ((parse_data d line now).1 = true →
      fieldSpec (frameDict line.data) "HR".data (fun n => some n)
        d.latest.hr (parse_data d line now).2.latest.hr ∧
      fieldSpec (frameDict line.data) "HR_VALID".data (fun n => n != 0)
        d.latest.hr_valid (parse_data d line now).2.latest.hr_valid ∧
      fieldSpec (frameDict line.data) "SPO2".data (fun n => some n)
        d.latest.spo2 (parse_data d line now).2.latest.spo2 ∧
      fieldSpec (frameDict line.data) "SPO2_VALID".data (fun n => n != 0)
        d.latest.spo2_valid (parse_data d line now).2.latest.spo2_valid ∧
      fieldSpec (frameDict line.data) "IR_AVG".data (fun n => some n)
        d.latest.ir_avg (parse_data d line now).2.latest.ir_avg ∧
      fieldSpec (frameDict line.data) "IR_RANGE".data (fun n => some n)
        d.latest.ir_range (parse_data d line now).2.latest.ir_range ∧
      fieldSpec (frameDict line.data) "TIMESTAMP".data (fun n => some n)
        d.latest.timestamp (parse_data d line now).2.latest.timestamp ∧
      (parse_data d line now).2.latest.local_time = some now ∧
      statusSpec (frameDict line.data) (parse_data d line now).2.latest.status) := by
  constructor
  · intro hd
    have hu : updateLatest (frameDict line.data) now d.latest =
        Except.ok { d.latest with local_time := some now, status := "receiving".data } := by
      rw [hd]
      rfl
    rw [parse_data_of_ok hu]
    refine ⟨rfl, ?_⟩
    rw [cm_latest, csv_latest, admitSpo2_latest, admitHr_latest]
  · intro hok
    obtain ⟨l, hu⟩ := parse_data_ok_elim hok
    obtain ⟨hlat, -, -, -, -, -, -⟩ := parse_ok_projections hu
    rw [hlat]
    exact updateLatest_spec hu

theorem parse_updates_exactly_present_keys_witness :
    ((parse_data (initDevice none) "" 7).1 = true ∧
      (parse_data (initDevice none) "" 7).2.latest =
        { (initDevice none).latest with local_time := some 7, status := "receiving".data }) ∧
    fieldSpec (frameDict "HR:42".data) "HR".data (fun n => some n)
      (initDevice none).latest.hr (parse_data (initDevice none) "HR:42" 0).2.latest.hr :=
  ⟨(parse_updates_exactly_present_keys (initDevice none) "" 7).1 (by decide),
   ((parse_updates_exactly_present_keys (initDevice none) "HR:42" 0).2 (by decide)).1⟩

/-- C1 counterexample: the second frame `SPO2:95,SPO2_VALID:1` carries no
`HR` key, yet after parsing it the reading's heart-rate field still holds 80
from the previous frame — fields without keys are not left unset, they keep
their previous values. -/
theorem parse_fields_persist_across_frames :
    lookupLast (frameDict "SPO2:95,SPO2_VALID:1".data) "HR".data = none ∧
    (runFrames (initDevice none)
      [("HR:80,HR_VALID:1", 0), ("SPO2:95,SPO2_VALID:1", 1)]).latest.hr = some 80 :=
  ⟨by decide, by decide⟩

theorem csv_smoothed_hr_cases (X : Device) :
    (calculate_smoothed_values X).smoothed_hr = X.smoothed_hr ∨
    ∃ y, (calculate_smoothed_values X).smoothed_hr = some y := by
  simp only [calculate_smoothed_values]
  repeat' split
  all_goals first
    | exact Or.inl rfl
    | exact Or.inr ⟨_, rfl⟩

theorem csv_smoothed_spo2_cases (X : Device) :
    (calculate_smoothed_values X).smoothed_spo2 = X.smoothed_spo2 ∨
    ∃ y, (calculate_smoothed_values X).smoothed_spo2 = some y := by
  simp only [calculate_smoothed_values]
  repeat' split
  all_goals first
    | exact Or.inl rfl
    | exact Or.inr ⟨_, rfl⟩

/-- C10: once a smoothed value or a metric is present it never becomes
absent again — every observable operation (parsing any line, including one
with no admissible samples or a decode failure, a connection attempt, a
disconnect, or the receive-loop error branch) preserves presence of all seven
derived values. -/
theorem step_preserves_presence {d d' : Device} (hst : Step d d') :
    (d.smoothed_hr.isSome = true → d'.smoothed_hr.isSome = true) ∧
    (d.smoothed_spo2.isSome = true → d'.smoothed_spo2.isSome = true) ∧
    (d.metrics.bpm.isSome = true → d'.metrics.bpm.isSome = true) ∧
    (d.metrics.ipm.isSome = true → d'.metrics.ipm.isSome = true) ∧
    (d.metrics.hrstd.isSome = true → d'.metrics.hrstd.isSome = true) ∧
    (d.metrics.rmssd.isSome = true → d'.metrics.rmssd.isSome = true) ∧
    (d.metrics.avg_spo2.isSome = true → d'.metrics.avg_spo2.isSome = true) := by
  cases hst with
  | conn tok =>
    cases hm : d.mac_address with
    | none => simp [connect, hm]
    | some m => cases tok <;> simp [connect, hm]
  | disc => simp [disconnect]
  | rxError => simp
  | parse line now =>
    cases hu : updateLatest (frameDict line.data) now d.latest with
    | error e =>
      rw [parse_data_of_error hu]
      simp
    | ok l =>
      obtain ⟨-, -, -, -, hsmP, hsmP2, hmetP⟩ := parse_ok_projections hu
      have hsmA : (admitSpo2 (admitHr now { d with latest := l })).smoothed_hr
          = d.smoothed_hr := by
        rw [admitSpo2_smoothed_hr, admitHr_smoothed_hr]
      have hsm2A : (admitSpo2 (admitHr now { d with latest := l })).smoothed_spo2
          = d.smoothed_spo2 := by
        rw [admitSpo2_smoothed_spo2, admitHr_smoothed_spo2]
      have hmetA : (calculate_smoothed_values
          (admitSpo2 (admitHr now { d with latest := l }))).metrics = d.metrics := by
        rw [csv_metrics, admitSpo2_metrics, admitHr_metrics]
      refine ⟨fun h => ?_, fun h => ?_, fun h => ?_, fun h => ?_,
        fun h => ?_, fun h => ?_, fun h => ?_⟩
      · rw [hsmP]
        rcases csv_smoothed_hr_cases (admitSpo2 (admitHr now { d with latest := l }))
          with hc | ⟨y, hc⟩
        · rw [hc, hsmA]; exact h
        · rw [hc]; rfl
      · rw [hsmP2]
        rcases csv_smoothed_spo2_cases (admitSpo2 (admitHr now { d with latest := l }))
          with hc | ⟨y, hc⟩
        · rw [hc, hsm2A]; exact h
        · rw [hc]; rfl
      · rw [hmetP]
        by_cases hl : (calculate_smoothed_values
            (admitSpo2 (admitHr now { d with latest := l }))).hr_history.length < 2
        · rw [cm_of_small hl, hmetA]; exact h
        · rw [(cm_metrics_of_ge2 (by omega)).1]; rfl
      · rw [hmetP]
        by_cases hl : (calculate_smoothed_values
            (admitSpo2 (admitHr now { d with latest := l }))).hr_history.length < 2
        · rw [cm_of_small hl, hmetA]; exact h
        · rw [(cm_metrics_of_ge2 (by omega)).2.1]; rfl
      · rw [hmetP]
        by_cases hl : (calculate_smoothed_values
            (admitSpo2 (admitHr now { d with latest := l }))).hr_history.length < 2
        · rw [cm_of_small hl, hmetA]; exact h
        · rw [(cm_metrics_of_ge2 (by omega)).2.2.1]; rfl
      · rw [hmetP]
        by_cases hl : (calculate_smoothed_values
            (admitSpo2 (admitHr now { d with latest := l }))).hr_history.length < 2
        · rw [cm_of_small hl, hmetA]; exact h
        · rw [(cm_metrics_of_ge2 (by omega)).2.2.2.1]; rfl
      · rw [hmetP]
        by_cases hl : (calculate_smoothed_values
            (admitSpo2 (admitHr now { d with latest := l }))).hr_history.length < 2
        · rw [cm_of_small hl, hmetA]; exact h
        · rw [(cm_metrics_of_ge2 (by omega)).2.2.2.2]
          split
          · rename_i hcond
            rw [Option.isSome_iff_ne_none]
            exact hcond.2
          · rw [hmetA]; exact h

/-- A device state in which every smoothed value and metric is present; used
to exercise the presence-preservation theorem. -/
noncomputable def presentDevice : Device :=
  { mac_address := none, sock := false, connected := false, latest := initLatest,
    hr_history := [60, 62], timestamp_history := [0, 1], hr_smoothing_buffer := [60, 62],
    spo2_smoothing_buffer := [95], smoothed_hr := some 61, smoothed_spo2 := some 95,
    metrics := { bpm := some 61, ipm := some 61, hrstd := some 1, rmssd := some 2,
                 avg_spo2 := some 95 } }

theorem step_preserves_presence_witness :
    (disconnect presentDevice).smoothed_hr.isSome = true ∧
    (disconnect presentDevice).smoothed_spo2.isSome = true ∧
    (disconnect presentDevice).metrics.bpm.isSome = true ∧
    (disconnect presentDevice).metrics.ipm.isSome = true ∧
    (disconnect presentDevice).metrics.hrstd.isSome = true ∧
    (disconnect presentDevice).metrics.rmssd.isSome = true ∧
    (disconnect presentDevice).metrics.avg_spo2.isSome = true :=
  ⟨(step_preserves_presence (Step.disc presentDevice)).1 rfl,
   (step_preserves_presence (Step.disc presentDevice)).2.1 rfl,
   (step_preserves_presence (Step.disc presentDevice)).2.2.1 rfl,
   (step_preserves_presence (Step.disc presentDevice)).2.2.2.1 rfl,
   (step_preserves_presence (Step.disc presentDevice)).2.2.2.2.1 rfl,
   (step_preserves_presence (Step.disc presentDevice)).2.2.2.2.2.1 rfl,
   (step_preserves_presence (Step.disc presentDevice)).2.2.2.2.2.2 rfl⟩
